import Mathlib

/-!
Verification of the two annotation scripts `annotations/annotate.py` and
`app/annotations/annotate.py`.  Both scripts read render/reference image
paths, a JSON diff report and an output directory from the command line,
recreate the output directory, and write one annotated side-by-side PNG
per in-range diff entry, named `annot_{idx}_r{r}_ref{f}.png`.

The embedding models the scripts as pure functions: image loading is an
abstract fallible function `load`, text measurement (`draw.textbbox`) is an
abstract function `measure`, and filesystem effects on the output directory
are recorded as an explicit operation trace interpreted over a directory
state.
-/

namespace Annot

/-! ### Decimal representation of naturals (`Nat.repr`)

The output filenames interpolate `idx`, `r`, `f` with Python's `f`-string,
which prints nonnegative integers in decimal.  We prove that `Nat.repr`
produces digit-only strings and is injective, so that distinct indices give
distinct filenames. -/

lemma toDigitsCore_append (fuel : Nat) :
    ∀ (n : Nat) (ds : List Char),
      Nat.toDigitsCore 10 fuel n ds = Nat.toDigitsCore 10 fuel n [] ++ ds := by
  induction fuel with
  | zero => intro n ds; simp [Nat.toDigitsCore]
  | succ f ih =>
    intro n ds
    simp only [Nat.toDigitsCore]
    by_cases h : n / 10 = 0
    · simp [h]
    · simp only [h, if_false]
      rw [ih (n / 10) (Nat.digitChar (n % 10) :: ds),
        ih (n / 10) [Nat.digitChar (n % 10)]]
      simp

lemma toDigitsCore_succ (f n : Nat) :
    Nat.toDigitsCore 10 (f + 1) n [] =
      (if n / 10 = 0 then [] else Nat.toDigitsCore 10 f (n / 10) []) ++
        [Nat.digitChar (n % 10)] := by
  simp only [Nat.toDigitsCore]
  by_cases h : n / 10 = 0
  · simp [h]
  · simp only [h, if_false]
    rw [toDigitsCore_append f (n / 10) [Nat.digitChar (n % 10)]]

lemma digitChar_isDigit {m : Nat} (h : m < 10) :
    (Nat.digitChar m).isDigit = true := by
  interval_cases m <;> rfl

lemma toDigitsCore_isDigit :
    ∀ (fuel n : Nat), ∀ c ∈ Nat.toDigitsCore 10 fuel n [], c.isDigit = true := by
  intro fuel
  induction fuel with
  | zero => intro n c hc; simp [Nat.toDigitsCore] at hc
  | succ f ih =>
    intro n c hc
    rw [toDigitsCore_succ] at hc
    rcases List.mem_append.1 hc with h | h
    · by_cases h0 : n / 10 = 0
      · simp [h0] at h
      · simp only [h0, if_false] at h
        exact ih (n / 10) c h
    · rcases List.mem_singleton.1 h with rfl
      exact digitChar_isDigit (Nat.mod_lt _ (by norm_num))

/-- Numeric value of a decimal digit character. -/
def digitVal (c : Char) : Nat := c.toNat - ('0' : Char).toNat

/-- Value of a most-significant-first list of decimal digit characters. -/
def valOfDigits (l : List Char) : Nat :=
  l.foldl (fun a c => 10 * a + digitVal c) 0

lemma valOfDigits_append_singleton (xs : List Char) (d : Char) :
    valOfDigits (xs ++ [d]) = 10 * valOfDigits xs + digitVal d := by
  simp [valOfDigits, List.foldl_append]

lemma digitVal_digitChar {m : Nat} (h : m < 10) :
    digitVal (Nat.digitChar m) = m := by
  interval_cases m <;> rfl

lemma valOfDigits_toDigitsCore :
    ∀ (fuel n : Nat), n < 10 ^ fuel →
      valOfDigits (Nat.toDigitsCore 10 fuel n []) = n := by
  intro fuel
  induction fuel with
  | zero =>
    intro n hn
    interval_cases n
    simp [Nat.toDigitsCore, valOfDigits]
  | succ f ih =>
    intro n hn
    rw [toDigitsCore_succ]
    by_cases h0 : n / 10 = 0
    · simp only [h0, if_true, List.nil_append]
      rw [show [Nat.digitChar (n % 10)] = [] ++ [Nat.digitChar (n % 10)] from rfl,
        valOfDigits_append_singleton]
      have : valOfDigits ([] : List Char) = 0 := rfl
      rw [this, digitVal_digitChar (Nat.mod_lt _ (by norm_num))]
      omega
    · simp only [h0, if_false]
      rw [valOfDigits_append_singleton,
        ih (n / 10) ((Nat.div_lt_iff_lt_mul (by norm_num)).mpr
          (by rw [pow_succ] at hn; omega)),
        digitVal_digitChar (Nat.mod_lt _ (by norm_num))]
      omega

lemma repr_data_isDigit (n : Nat) : ∀ c ∈ (Nat.repr n).data, c.isDigit = true := by
  intro c hc
  have : (Nat.repr n).data = Nat.toDigitsCore 10 (n + 1) n [] := rfl
  rw [this] at hc
  exact toDigitsCore_isDigit (n + 1) n c hc

lemma valOfDigits_repr (n : Nat) : valOfDigits (Nat.repr n).data = n := by
  have hlt : n < 10 ^ (n + 1) := by
    calc n < 10 ^ n := Nat.lt_pow_self (by norm_num) n
    _ ≤ 10 ^ (n + 1) := Nat.pow_le_pow_right (by norm_num) (Nat.le_succ n)
  have : (Nat.repr n).data = Nat.toDigitsCore 10 (n + 1) n [] := rfl
  rw [this]
  exact valOfDigits_toDigitsCore (n + 1) n hlt

lemma repr_data_inj {m n : Nat} (h : (Nat.repr m).data = (Nat.repr n).data) :
    m = n := by
  have := valOfDigits_repr m
  rw [h, valOfDigits_repr n] at this
  omega

/-- Digit-only strings followed by a non-digit separator can be cancelled. -/
lemma digits_sep_inj (sep : Char) (hsep : sep.isDigit = false) :
    ∀ (s t rest₁ rest₂ : List Char),
      (∀ c ∈ s, c.isDigit = true) → (∀ c ∈ t, c.isDigit = true) →
      s ++ sep :: rest₁ = t ++ sep :: rest₂ → s = t ∧ rest₁ = rest₂ := by
  intro s
  induction s with
  | nil =>
    intro t rest₁ rest₂ _ ht h
    cases t with
    | nil => simpa using h
    | cons c t' =>
      exfalso
      simp only [List.nil_append, List.cons_append, List.cons.injEq] at h
      have : c.isDigit = true := ht c (List.mem_cons_self c t')
      rw [← h.1] at this
      simp [this] at hsep
  | cons c s' ih =>
    intro t rest₁ rest₂ hs ht h
    cases t with
    | nil =>
      exfalso
      simp only [List.cons_append, List.nil_append, List.cons.injEq] at h
      have : c.isDigit = true := hs c (List.mem_cons_self c s')
      rw [h.1] at this
      simp [this] at hsep
    | cons d t' =>
      simp only [List.cons_append, List.cons.injEq] at h
      obtain ⟨rfl, h2⟩ := h
      have := ih t' rest₁ rest₂
        (fun x hx => hs x (List.mem_cons_of_mem _ hx))
        (fun x hx => ht x (List.mem_cons_of_mem _ hx)) h2
      exact ⟨by rw [this.1], this.2⟩

/-- Output filename `annot_{idx}_r{r}_ref{f}.png` built by both scripts'
`f`-string at the end of the per-entry loop. -/
def mkName (idx r f : Nat) : String :=
  "annot_" ++ Nat.repr idx ++ "_r" ++ Nat.repr r ++ "_ref" ++ Nat.repr f ++ ".png"

lemma data_annot : ("annot_" : String).data = ['a', 'n', 'n', 'o', 't', '_'] := rfl

lemma data_rsep : ("_r" : String).data = ['_', 'r'] := rfl

lemma data_refsep : ("_ref" : String).data = ['_', 'r', 'e', 'f'] := rfl

lemma data_png : (".png" : String).data = ['.', 'p', 'n', 'g'] := rfl

lemma repr_eq_of_data_eq {m n : Nat} (h : (Nat.repr m).data = (Nat.repr n).data) :
    m = n := repr_data_inj h

lemma mkName_inj {i r f j r' f' : Nat} (h : mkName i r f = mkName j r' f') :
    i = j ∧ r = r' ∧ f = f' := by
  have hd := congrArg String.data h
  simp only [mkName, String.data_append, data_annot, data_rsep, data_refsep,
    data_png, List.append_assoc, List.cons_append, List.nil_append,
    List.cons.injEq, true_and] at hd
  have h1 := digits_sep_inj '_' rfl _ _ _ _ (repr_data_isDigit i)
    (repr_data_isDigit j) hd
  obtain ⟨hi, hrest⟩ := h1
  simp only [List.cons.injEq, true_and] at hrest
  have h2 := digits_sep_inj '_' rfl _ _ _ _ (repr_data_isDigit r)
    (repr_data_isDigit r') hrest
  obtain ⟨hr, hrest2⟩ := h2
  simp only [List.cons.injEq, true_and] at hrest2
  have h3 := digits_sep_inj '.' rfl _ _ _ _ (repr_data_isDigit f)
    (repr_data_isDigit f') hrest2
  exact ⟨repr_eq_of_data_eq hi, repr_eq_of_data_eq hr, repr_eq_of_data_eq h3.1⟩

/-! ### Data model

`DiffEntry` models one element of the `differences` array of the decoded
diff JSON.  Fields the scripts read with `entry.get(...)` are `Option`s
(`none` = key absent).  The `issues`/`issue` fields may hold a bare string
or a list of strings (`JVal`). -/

/-- A JSON value appearing in the `issues` / `issue` fields: either a bare
string or a list of strings. -/
inductive JVal where
  | str (s : String)
  | list (l : List String)
deriving DecidableEq

/-- Python truthiness of such a value: empty string and empty list are falsy. -/
def JVal.truthy : JVal → Bool
  | .str s => !s.isEmpty
  | .list l => !l.isEmpty

/-- Python `a or b` for an optional JSON value `a` (`None` is falsy). -/
def pyOrElse (a : Option JVal) (b : JVal) : JVal :=
  match a with
  | none => b
  | some v => if v.truthy then v else b

/-- `raw_issues if isinstance(raw_issues, list) else [raw_issues]`. -/
def toIssueList : JVal → List String
  | .str s => [s]
  | .list l => l

/-- One element of the `differences` array. -/
structure DiffEntry where
  renderIndex : Option Int
  referenceIndex : Option Int
  issues : Option JVal
  issue : Option JVal
  bbox : Option (Int × Int × Int × Int)
  severity : Option String
deriving DecidableEq

/-- The decoded diff JSON document: `differences` is `none` when the
top-level key is missing. -/
structure DiffReport where
  differences : Option (List DiffEntry)
deriving DecidableEq

/-- A text label drawn onto the canvas: text, position and fill color. -/
structure Label where
  text : String
  tx : Int
  ty : Int
  fill : String
deriving DecidableEq

/-- One output image written by the loop: its ordinal index, resolved render
and reference indices, filename, the two composited images, and the labels
drawn on top. -/
structure OutFile where
  idx : Nat
  r : Nat
  f : Nat
  name : String
  imgRender : String
  imgReference : String
  labels : List Label
deriving DecidableEq

/-- Filesystem operations both scripts perform on the output directory. -/
inductive FSOp where
  | rmtree
  | mkdir
  | write (name : String)
deriving DecidableEq

/-- Effect of one operation on the state of the output directory
(`none` = directory does not exist). -/
def applyOp : Option (List String) → FSOp → Option (List String)
  | _, FSOp.rmtree => none
  | none, FSOp.mkdir => some []
  | some l, FSOp.mkdir => some l
  | none, FSOp.write _ => none
  | some l, FSOp.write n => some (if n ∈ l then l else l ++ [n])

def applyOps (s : Option (List String)) (ops : List FSOp) : Option (List String) :=
  ops.foldl applyOp s

/-- `if out_dir.exists(): shutil.rmtree(out_dir)` followed by
`out_dir.mkdir(parents=True, exist_ok=True)`. -/
def clearOps (dirExists : Bool) : List FSOp :=
  (if dirExists then [FSOp.rmtree] else []) ++ [FSOp.mkdir]

/-- `severity → color` dictionary lookup with default `"red"`:
`colors.get(severity, "red")` over `{"low":"green","medium":"orange","high":"red"}`. -/
def colorsGet (severity : String) : String :=
  if severity = "low" then "green"
  else if severity = "medium" then "orange"
  else if severity = "high" then "red"
  else "red"

/-- The skip condition of both loops:
`r < 0 or r >= len(renders) or f < 0 or f >= len(references)`. -/
def outOfRange (renders references : List String) (entry : DiffEntry) : Prop :=
  entry.renderIndex.getD (-1) < 0 ∨
    (renders.length : Int) ≤ entry.renderIndex.getD (-1) ∨
    entry.referenceIndex.getD (-1) < 0 ∨
    (references.length : Int) ≤ entry.referenceIndex.getD (-1)

instance (renders references : List String) (entry : DiffEntry) :
    Decidable (outOfRange renders references entry) :=
  show Decidable (_ ∨ _ ∨ _ ∨ _) from inferInstance

def PADDING : Int := 8

/-- The overall result of running a script: whether it took the usage-error
path, the process exit code, the trace of filesystem operations on the
output directory, the output images produced, and the error message of an
unhandled exception (if the run aborted). -/
structure RunResult where
  usageError : Bool
  exitCode : Nat
  fsOps : List FSOp
  outs : List OutFile
  err : Option String
deriving DecidableEq

/-- `for idx, entry in enumerate(entries)` starting at ordinal `idx`:
per-entry processing `step` may skip (`ok none`), produce a file
(`ok (some o)`), or raise (`error`), which aborts the rest of the loop. -/
def runLoopFrom (step : Nat → DiffEntry → Except String (Option OutFile)) :
    Nat → List DiffEntry → List OutFile × Option String
  | _, [] => ([], none)
  | idx, entry :: rest =>
    match step idx entry with
    | Except.error msg => ([], some msg)
    | Except.ok none => runLoopFrom step (idx + 1) rest
    | Except.ok (some o) =>
      let p := runLoopFrom step (idx + 1) rest
      (o :: p.1, p.2)

namespace Annotations

/-- The label-drawing loop of `annotations/annotate.py`: each truthy issue
gets a label at `ty = y_cursor - th`, falling back to `y + h + PADDING`
when `ty < 0`; the cursor then moves to `ty - PADDING`. Text is black. -/
def drawLabels (measure : String → Int × Int) (x y h : Int) :
    Int → List String → List Label
  | _, [] => []
  | yCursor, issue :: rest =>
    if issue.isEmpty then drawLabels measure x y h yCursor rest
    else
      let th := (measure issue).2
      let ty0 := yCursor - th
      let ty := if ty0 < 0 then y + h + PADDING else ty0
      ⟨issue, x, ty, "black"⟩ :: drawLabels measure x y h (ty - PADDING) rest

/-- The body of the per-entry loop of `annotations/annotate.py`. -/
def processEntry (load : String → Except String String)
    (measure : String → Int × Int) (renders references : List String)
    (idx : Nat) (entry : DiffEntry) : Except String (Option OutFile) :=
  let r : Int := entry.renderIndex.getD (-1)
  let f : Int := entry.referenceIndex.getD (-1)
  let issues := toIssueList (pyOrElse entry.issues (pyOrElse entry.issue (JVal.list [])))
  let bbox := entry.bbox.getD (0, 0, 0, 0)
  if outOfRange renders references entry then Except.ok none
  else
    match load (renders.getD r.toNat ""), load (references.getD f.toNat "") with
    | Except.error msg, _ => Except.error msg
    | Except.ok _, Except.error msg => Except.error msg
    | Except.ok imgR, Except.ok imgF =>
      let x := bbox.1
      let y := bbox.2.1
      let h := bbox.2.2.2
      Except.ok (some ⟨idx, r.toNat, f.toNat, mkName idx r.toNat f.toNat,
        imgR, imgF, drawLabels measure x y h (y - PADDING) issues⟩)

/-- `main` of `annotations/annotate.py` (filesystem effects as a trace). -/
def main (args : List String) (dirExists : Bool) (diff : DiffReport)
    (load : String → Except String String) (measure : String → Int × Int) :
    RunResult :=
  if args.length < 3 then ⟨true, 1, [], [], none⟩
  else
    let files := args.dropLast.dropLast
    let renders := files.take 4
    let references := files.drop 4
    let entries := diff.differences.getD []
    let p := runLoopFrom (processEntry load measure renders references) 0 entries
    ⟨false, if p.2.isSome then 1 else 0,
      clearOps dirExists ++ p.1.map (fun o => FSOp.write o.name), p.1, p.2⟩

end Annotations

namespace App

/-- The single-label drawing of `app/annotations/annotate.py`: only the
first issue is drawn, at `ty = y - th - 8`, falling back to
`y + h_box + 8` when `ty < 0`; text is colored by severity. -/
def drawLabel (measure : String → Int × Int) (bbox : Int × Int × Int × Int)
    (severity : String) (issues : List String) : List Label :=
  let text := issues.headD ""
  if text.isEmpty then []
  else
    let th := (measure text).2
    let x := bbox.1
    let y := bbox.2.1
    let hBox := bbox.2.2.2
    let tx := x
    let ty0 := y - th - 8
    let ty := if ty0 < 0 then y + hBox + 8 else ty0
    [⟨text, tx, ty, colorsGet severity⟩]

/-- The body of the per-entry loop of `app/annotations/annotate.py`. -/
def processEntry (load : String → Except String String)
    (measure : String → Int × Int) (renders references : List String)
    (idx : Nat) (entry : DiffEntry) : Except String (Option OutFile) :=
  let r : Int := entry.renderIndex.getD (-1)
  let f : Int := entry.referenceIndex.getD (-1)
  let issues := toIssueList (entry.issues.getD (JVal.list []))
  let bbox := entry.bbox.getD (0, 0, 0, 0)
  let severity := entry.severity.getD "low"
  if outOfRange renders references entry then Except.ok none
  else
    match load (renders.getD r.toNat ""), load (references.getD f.toNat "") with
    | Except.error msg, _ => Except.error msg
    | Except.ok _, Except.error msg => Except.error msg
    | Except.ok imgR, Except.ok imgF =>
      Except.ok (some ⟨idx, r.toNat, f.toNat, mkName idx r.toNat f.toNat,
        imgR, imgF, drawLabel measure bbox severity issues⟩)

/-- `main` of `app/annotations/annotate.py` (filesystem effects as a trace). -/
def main (args : List String) (dirExists : Bool) (diff : DiffReport)
    (load : String → Except String String) (measure : String → Int × Int) :
    RunResult :=
  if args.length < 3 then ⟨true, 1, [], [], none⟩
  else
    let files := args.dropLast.dropLast
    let renders := files.take 4
    let references := files.drop 4
    let entries := diff.differences.getD []
    let p := runLoopFrom (processEntry load measure renders references) 0 entries
    ⟨false, if p.2.isSome then 1 else 0,
      clearOps dirExists ++ p.1.map (fun o => FSOp.write o.name), p.1, p.2⟩

end App

instance {ε α : Type} [DecidableEq ε] [DecidableEq α] : DecidableEq (Except ε α) :=
  fun a b =>
    match a, b with
    | Except.error e, Except.error e' =>
      if h : e = e' then isTrue (by rw [h]) else isFalse (by intro hc; cases hc; exact h rfl)
    | Except.error _, Except.ok _ => isFalse (by intro hc; cases hc)
    | Except.ok _, Except.error _ => isFalse (by intro hc; cases hc)
    | Except.ok v, Except.ok v' =>
      if h : v = v' then isTrue (by rw [h]) else isFalse (by intro hc; cases hc; exact h rfl)

/-! ### Structural lemmas about the per-entry loop -/

section LoopLemmas

variable (step : Nat → DiffEntry → Except String (Option OutFile))

lemma runLoopFrom_cons (k : Nat) (entry : DiffEntry) (rest : List DiffEntry) :
    runLoopFrom step k (entry :: rest) =
      match step k entry with
      | Except.error msg => ([], some msg)
      | Except.ok none => runLoopFrom step (k + 1) rest
      | Except.ok (some o) =>
        (o :: (runLoopFrom step (k + 1) rest).1, (runLoopFrom step (k + 1) rest).2) := rfl

lemma runLoopFrom_skip {k : Nat} {entry : DiffEntry} (rest : List DiffEntry)
    (h : step k entry = Except.ok none) :
    runLoopFrom step k (entry :: rest) = runLoopFrom step (k + 1) rest := by
  rw [runLoopFrom_cons, h]

lemma runLoopFrom_idx_bounds
    (hstep : ∀ k entry o, step k entry = Except.ok (some o) → o.idx = k) :
    ∀ (entries : List DiffEntry) (k : Nat) (o : OutFile),
      o ∈ (runLoopFrom step k entries).1 →
      k ≤ o.idx ∧ o.idx < k + entries.length := by
  intro entries
  induction entries with
  | nil => intro k o ho; simp [runLoopFrom] at ho
  | cons e rest ih =>
    intro k o ho
    rw [runLoopFrom_cons] at ho
    cases hs : step k e with
    | error msg => rw [hs] at ho; simp at ho
    | ok res =>
      cases res with
      | none =>
        rw [hs] at ho
        have := ih (k + 1) o ho
        constructor
        · omega
        · simp only [List.length_cons]; omega
      | some o' =>
        rw [hs] at ho
        simp only [List.mem_cons] at ho
        rcases ho with rfl | ho
        · have := hstep k e o hs
          constructor
          · omega
          · simp only [List.length_cons]; omega
        · have := ih (k + 1) o ho
          constructor
          · omega
          · simp only [List.length_cons]; omega

lemma runLoopFrom_pairwise
    (hstep : ∀ k entry o, step k entry = Except.ok (some o) → o.idx = k) :
    ∀ (entries : List DiffEntry) (k : Nat),
      (runLoopFrom step k entries).1.Pairwise (fun a b => a.idx < b.idx) := by
  intro entries
  induction entries with
  | nil => intro k; simp [runLoopFrom]
  | cons e rest ih =>
    intro k
    rw [runLoopFrom_cons]
    cases hs : step k e with
    | error msg => simp
    | ok res =>
      cases res with
      | none => exact ih (k + 1)
      | some o' =>
        simp only
        refine List.Pairwise.cons ?_ (ih (k + 1))
        intro b hb
        have hbd := runLoopFrom_idx_bounds step hstep rest (k + 1) b hb
        have := hstep k e o' hs
        omega

lemma runLoopFrom_mem_elim :
    ∀ (entries : List DiffEntry) (k : Nat) (o : OutFile),
      o ∈ (runLoopFrom step k entries).1 →
      ∃ i, ∃ (h : i < entries.length),
        step (k + i) (entries.get ⟨i, h⟩) = Except.ok (some o) := by
  intro entries
  induction entries with
  | nil => intro k o ho; simp [runLoopFrom] at ho
  | cons e rest ih =>
    intro k o ho
    rw [runLoopFrom_cons] at ho
    cases hs : step k e with
    | error msg => rw [hs] at ho; simp at ho
    | ok res =>
      cases res with
      | none =>
        rw [hs] at ho
        obtain ⟨i, hi, hstep'⟩ := ih (k + 1) o ho
        exact ⟨i + 1, by simpa using Nat.succ_lt_succ hi, by
          simpa [Nat.add_comm, Nat.add_assoc, Nat.add_left_comm] using hstep'⟩
      | some o' =>
        rw [hs] at ho
        simp only [List.mem_cons] at ho
        rcases ho with rfl | ho
        · exact ⟨0, by simp, by simpa using hs⟩
        · obtain ⟨i, hi, hstep'⟩ := ih (k + 1) o ho
          exact ⟨i + 1, by simpa using Nat.succ_lt_succ hi, by
            simpa [Nat.add_comm, Nat.add_assoc, Nat.add_left_comm] using hstep'⟩

lemma runLoopFrom_intro :
    ∀ (entries : List DiffEntry) (k : Nat),
      (runLoopFrom step k entries).2 = none →
      ∀ (i : Nat) (h : i < entries.length),
        ∃ res, step (k + i) (entries.get ⟨i, h⟩) = Except.ok res ∧
          ∀ o, res = some o → o ∈ (runLoopFrom step k entries).1 := by
  intro entries
  induction entries with
  | nil => intro k _ i h; simp at h
  | cons e rest ih =>
    intro k herr i h
    rw [runLoopFrom_cons] at herr
    cases hs : step k e with
    | error msg => rw [hs] at herr; simp at herr
    | ok res =>
      cases res with
      | none =>
        rw [hs] at herr
        cases i with
        | zero =>
          refine ⟨none, by simpa using hs, ?_⟩
          intro o ho; cases ho
        | succ i' =>
          obtain ⟨res, hres, hmem⟩ := ih (k + 1) herr i' (by simpa using Nat.lt_of_succ_lt_succ h)
          refine ⟨res, by simpa [Nat.add_comm, Nat.add_assoc, Nat.add_left_comm] using hres, ?_⟩
          intro o ho
          rw [runLoopFrom_skip step rest hs]
          exact hmem o ho
      | some o' =>
        rw [hs] at herr
        cases i with
        | zero =>
          refine ⟨some o', by simpa using hs, ?_⟩
          intro o ho
          rw [runLoopFrom_cons, hs]
          cases Option.some.inj ho
          exact List.mem_cons_self o' (runLoopFrom step (k + 1) rest).1
        | succ i' =>
          obtain ⟨res, hres, hmem⟩ := ih (k + 1) herr i' (by simpa using Nat.lt_of_succ_lt_succ h)
          refine ⟨res, by simpa [Nat.add_comm, Nat.add_assoc, Nat.add_left_comm] using hres, ?_⟩
          intro o ho
          rw [runLoopFrom_cons, hs]
          exact List.mem_cons_of_mem o' (hmem o ho)

end LoopLemmas

namespace Annotations

lemma annEntry_skip (load : String → Except String String)
    (measure : String → Int × Int) (renders references : List String)
    (k : Nat) (entry : DiffEntry) (h : outOfRange renders references entry) :
    processEntry load measure renders references k entry = Except.ok none := by
  simp [processEntry, h]

lemma annEntry_ok_some {load : String → Except String String}
    {measure : String → Int × Int} {renders references : List String}
    {k : Nat} {entry : DiffEntry} {o : OutFile}
    (h : processEntry load measure renders references k entry = Except.ok (some o)) :
    ¬ outOfRange renders references entry ∧ o.idx = k ∧
      o.r = (entry.renderIndex.getD (-1)).toNat ∧
      o.f = (entry.referenceIndex.getD (-1)).toNat ∧
      o.name = mkName k (entry.renderIndex.getD (-1)).toNat
        (entry.referenceIndex.getD (-1)).toNat := by
  by_cases hr : outOfRange renders references entry
  · rw [annEntry_skip load measure renders references k entry hr] at h
    simp at h
  · refine ⟨hr, ?_⟩
    simp only [processEntry, hr, if_false] at h
    cases hA : load (renders.getD (entry.renderIndex.getD (-1)).toNat "") with
    | error m => rw [hA] at h; simp at h
    | ok vA =>
      cases hB : load (references.getD (entry.referenceIndex.getD (-1)).toNat "") with
      | error m => rw [hA, hB] at h; simp at h
      | ok vB =>
        rw [hA, hB] at h
        simp only [Except.ok.injEq, Option.some.injEq] at h
        rw [← h]
        exact ⟨rfl, rfl, rfl, rfl⟩

lemma annEntry_not_skip {load : String → Except String String}
    {measure : String → Int × Int} {renders references : List String}
    {k : Nat} {entry : DiffEntry} (hr : ¬ outOfRange renders references entry) :
    processEntry load measure renders references k entry ≠ Except.ok none := by
  simp only [processEntry, hr, if_false]
  cases hA : load (renders.getD (entry.renderIndex.getD (-1)).toNat "") with
  | error m => simp
  | ok vA =>
    cases hB : load (references.getD (entry.referenceIndex.getD (-1)).toNat "") with
    | error m => simp
    | ok vB => simp


end Annotations

namespace App

lemma appEntry_skip (load : String → Except String String)
    (measure : String → Int × Int) (renders references : List String)
    (k : Nat) (entry : DiffEntry) (h : outOfRange renders references entry) :
    processEntry load measure renders references k entry = Except.ok none := by
  simp [processEntry, h]

lemma appEntry_ok_some {load : String → Except String String}
    {measure : String → Int × Int} {renders references : List String}
    {k : Nat} {entry : DiffEntry} {o : OutFile}
    (h : processEntry load measure renders references k entry = Except.ok (some o)) :
    ¬ outOfRange renders references entry ∧ o.idx = k ∧
      o.r = (entry.renderIndex.getD (-1)).toNat ∧
      o.f = (entry.referenceIndex.getD (-1)).toNat ∧
      o.name = mkName k (entry.renderIndex.getD (-1)).toNat
        (entry.referenceIndex.getD (-1)).toNat := by
  by_cases hr : outOfRange renders references entry
  · rw [appEntry_skip load measure renders references k entry hr] at h
    simp at h
  · refine ⟨hr, ?_⟩
    simp only [processEntry, hr, if_false] at h
    cases hA : load (renders.getD (entry.renderIndex.getD (-1)).toNat "") with
    | error m => rw [hA] at h; simp at h
    | ok vA =>
      cases hB : load (references.getD (entry.referenceIndex.getD (-1)).toNat "") with
      | error m => rw [hA, hB] at h; simp at h
      | ok vB =>
        rw [hA, hB] at h
        simp only [Except.ok.injEq, Option.some.injEq] at h
        rw [← h]
        exact ⟨rfl, rfl, rfl, rfl⟩

lemma appEntry_not_skip {load : String → Except String String}
    {measure : String → Int × Int} {renders references : List String}
    {k : Nat} {entry : DiffEntry} (hr : ¬ outOfRange renders references entry) :
    processEntry load measure renders references k entry ≠ Except.ok none := by
  simp only [processEntry, hr, if_false]
  cases hA : load (renders.getD (entry.renderIndex.getD (-1)).toNat "") with
  | error m => simp
  | ok vA =>
    cases hB : load (references.getD (entry.referenceIndex.getD (-1)).toNat "") with
    | error m => simp
    | ok vB => simp


end App

section NameLemmas

variable (step : Nat → DiffEntry → Except String (Option OutFile))

lemma runLoopFrom_names
    (hname : ∀ k entry o, step k entry = Except.ok (some o) →
      o.name = mkName o.idx o.r o.f) :
    ∀ (entries : List DiffEntry) (k : Nat) (o : OutFile),
      o ∈ (runLoopFrom step k entries).1 → o.name = mkName o.idx o.r o.f := by
  intro entries k o ho
  obtain ⟨i, hi, hs⟩ := runLoopFrom_mem_elim step entries k o ho
  exact hname (k + i) (entries.get ⟨i, hi⟩) o hs

lemma runLoopFrom_names_nodup
    (hstep : ∀ k entry o, step k entry = Except.ok (some o) → o.idx = k)
    (hname : ∀ k entry o, step k entry = Except.ok (some o) →
      o.name = mkName o.idx o.r o.f) :
    ∀ (entries : List DiffEntry) (k : Nat),
      ((runLoopFrom step k entries).1.map (fun o => o.name)).Nodup := by
  intro entries k
  have hpw := runLoopFrom_pairwise step hstep entries k
  have hpw' : (runLoopFrom step k entries).1.Pairwise (fun a b => a.name ≠ b.name) := by
    refine List.Pairwise.imp_of_mem ?_ hpw
    intro a b ha hb hlt heq
    have hna := runLoopFrom_names step hname entries k a ha
    have hnb := runLoopFrom_names step hname entries k b hb
    rw [hna, hnb] at heq
    have := (mkName_inj heq).1
    omega
  exact List.Pairwise.map (fun o : OutFile => o.name) (fun a b hab => hab) hpw'

end NameLemmas

lemma annotations_step_idx (load : String → Except String String)
    (measure : String → Int × Int) (renders references : List String) :
    ∀ (k : Nat) (entry : DiffEntry) (o : OutFile),
      Annotations.processEntry load measure renders references k entry =
        Except.ok (some o) → o.idx = k :=
  fun _ _ _ h => (Annotations.annEntry_ok_some h).2.1

lemma annotations_step_name (load : String → Except String String)
    (measure : String → Int × Int) (renders references : List String) :
    ∀ (k : Nat) (entry : DiffEntry) (o : OutFile),
      Annotations.processEntry load measure renders references k entry =
        Except.ok (some o) → o.name = mkName o.idx o.r o.f := by
  intro k entry o h
  obtain ⟨-, hidx, hr, hf, hn⟩ := Annotations.annEntry_ok_some h
  rw [hn, hidx, hr, hf]

lemma app_step_idx (load : String → Except String String)
    (measure : String → Int × Int) (renders references : List String) :
    ∀ (k : Nat) (entry : DiffEntry) (o : OutFile),
      App.processEntry load measure renders references k entry =
        Except.ok (some o) → o.idx = k :=
  fun _ _ _ h => (App.appEntry_ok_some h).2.1

lemma app_step_name (load : String → Except String String)
    (measure : String → Int × Int) (renders references : List String) :
    ∀ (k : Nat) (entry : DiffEntry) (o : OutFile),
      App.processEntry load measure renders references k entry =
        Except.ok (some o) → o.name = mkName o.idx o.r o.f := by
  intro k entry o h
  obtain ⟨-, hidx, hr, hf, hn⟩ := App.appEntry_ok_some h
  rw [hn, hidx, hr, hf]

/-! ### Directory-state lemmas -/

lemma applyOps_append (s : Option (List String)) (ops₁ ops₂ : List FSOp) :
    applyOps s (ops₁ ++ ops₂) = applyOps (applyOps s ops₁) ops₂ := by
  simp [applyOps, List.foldl_append]

lemma applyOps_clear (dirExists : Bool) (prev : Option (List String))
    (h : prev.isSome = dirExists) :
    applyOps prev (clearOps dirExists) = some [] := by
  cases dirExists with
  | true => cases prev with
    | none => simp at h
    | some l => rfl
  | false => cases prev with
    | none => rfl
    | some l => simp at h

lemma applyOps_writes :
    ∀ (names acc : List String), names.Nodup → (∀ n ∈ names, n ∉ acc) →
      applyOps (some acc) (names.map FSOp.write) = some (acc ++ names) := by
  intro names
  induction names with
  | nil => intro acc _ _; simp [applyOps]
  | cons n rest ih =>
    intro acc hnd hdisj
    have hn : n ∉ acc := hdisj n (List.mem_cons_self n rest)
    have h1 : applyOp (some acc) (FSOp.write n) = some (acc ++ [n]) := by
      simp [applyOp, hn]
    simp only [List.map_cons, applyOps, List.foldl_cons, h1]
    have hih := ih (acc ++ [n]) (List.Nodup.of_cons hnd) (by
      intro m hm
      simp only [List.mem_append, List.mem_singleton]
      rintro (hmacc | rfl)
      · exact hdisj m (List.mem_cons_of_mem n hm) hmacc
      · exact (List.nodup_cons.1 hnd).1 hm)
    simp only [applyOps] at hih
    rw [hih]
    simp

/-! ### Label-placement lemmas -/

namespace Annotations

/-- Vertical placement of the stacked labels: the first drawn label is
placed at `yCursor - th` when that is on-canvas and at `y + h + PADDING`
otherwise; each following label is placed `PADDING` below the previous
label's top minus its own text height, with the same fallback. -/
lemma drawLabels_spec (measure : String → Int × Int) (x y h : Int) :
    ∀ (issues : List String) (yCursor : Int),
      (∀ lab ∈ (drawLabels measure x y h yCursor issues).head?,
        (yCursor - (measure lab.text).2 < 0 ∧ lab.ty = y + h + PADDING) ∨
        (lab.ty = yCursor - (measure lab.text).2 ∧ 0 ≤ lab.ty)) ∧
      List.Chain' (fun a b =>
        (a.ty - PADDING - (measure b.text).2 < 0 ∧ b.ty = y + h + PADDING) ∨
        (b.ty = a.ty - PADDING - (measure b.text).2 ∧ 0 ≤ b.ty))
        (drawLabels measure x y h yCursor issues) := by
  intro issues
  induction issues with
  | nil =>
    intro yCursor
    constructor
    · intro lab hl; simp [drawLabels] at hl
    · simp [drawLabels]
  | cons issue rest ih =>
    intro yCursor
    by_cases he : issue.isEmpty
    · simpa [drawLabels, if_pos he] using ih yCursor
    · have hrec := ih ((if yCursor - (measure issue).2 < 0 then y + h + PADDING
        else yCursor - (measure issue).2) - PADDING)
      constructor
      · intro lab hl
        simp only [drawLabels, if_neg he, List.head?_cons, Option.mem_def,
          Option.some.injEq] at hl
        subst hl
        by_cases hty : yCursor - (measure issue).2 < 0
        · exact Or.inl ⟨hty, by simp [hty]⟩
        · refine Or.inr ⟨by simp [hty], ?_⟩
          simp only [hty, if_false]
          omega
      · simp only [drawLabels, if_neg he]
        rw [List.chain'_cons']
        refine ⟨?_, hrec.2⟩
        intro b hb
        exact hrec.1 b hb

end Annotations

namespace App

lemma processEntry_labels {load : String → Except String String}
    {measure : String → Int × Int} {renders references : List String}
    {k : Nat} {entry : DiffEntry} {o : OutFile}
    (h : processEntry load measure renders references k entry = Except.ok (some o)) :
    o.labels = drawLabel measure (entry.bbox.getD (0, 0, 0, 0))
      (entry.severity.getD "low") (toIssueList (entry.issues.getD (JVal.list []))) := by
  by_cases hr : outOfRange renders references entry
  · rw [appEntry_skip load measure renders references k entry hr] at h
    simp at h
  · simp only [processEntry, hr, if_false] at h
    cases hA : load (renders.getD (entry.renderIndex.getD (-1)).toNat "") with
    | error m => rw [hA] at h; simp at h
    | ok vA =>
      cases hB : load (references.getD (entry.referenceIndex.getD (-1)).toNat "") with
      | error m => rw [hA, hB] at h; simp at h
      | ok vB =>
        rw [hA, hB] at h
        simp only [Except.ok.injEq, Option.some.injEq] at h
        rw [← h]

/-- Every label drawn by the app variant is filled with the color looked up
from the resolved severity (default `"red"` for unrecognized values). -/
lemma drawLabel_fill (measure : String → Int × Int)
    (bbox : Int × Int × Int × Int) (severity : String) (issues : List String) :
    ∀ lab ∈ drawLabel measure bbox severity issues, lab.fill = colorsGet severity := by
  intro lab hl
  simp only [drawLabel] at hl
  by_cases he : (issues.headD "").isEmpty
  · rw [if_pos he] at hl
    simp at hl
  · rw [if_neg he, List.mem_singleton] at hl
    subst hl
    rfl

lemma drawLabel_ty (measure : String → Int × Int)
    (bbox : Int × Int × Int × Int) (severity : String) (issues : List String) :
    ∀ lab ∈ drawLabel measure bbox severity issues,
      (bbox.2.1 - (measure lab.text).2 - 8 < 0 ∧
        lab.ty = bbox.2.1 + bbox.2.2.2 + 8) ∨
      (lab.ty = bbox.2.1 - (measure lab.text).2 - 8 ∧ 0 ≤ lab.ty) := by
  intro lab hl
  simp only [drawLabel] at hl
  by_cases he : (issues.headD "").isEmpty
  · rw [if_pos he] at hl
    simp at hl
  · rw [if_neg he, List.mem_singleton] at hl
    subst hl
    dsimp only
    by_cases hty : bbox.2.1 - (measure (issues.headD "")).2 - 8 < 0
    · refine Or.inl ⟨hty, ?_⟩
      rw [if_pos hty]
    · refine Or.inr ⟨?_, ?_⟩
      · rw [if_neg hty]
      · rw [if_neg hty]
        omega

end App

lemma colorsGet_low : colorsGet "low" = "green" := rfl

lemma colorsGet_unrecognized {s : String} (h1 : s ≠ "low") (h2 : s ≠ "medium")
    (h3 : s ≠ "high") : colorsGet s = "red" := by
  simp [colorsGet, h1, h2, h3]

/-! ### `main`-level helper lemmas -/

namespace Annotations

lemma annMain_fields (args : List String) (dirExists : Bool) (diff : DiffReport)
    (load : String → Except String String) (measure : String → Int × Int)
    (h : ¬ args.length < 3) :
    (main args dirExists diff load measure).usageError = false ∧
    (main args dirExists diff load measure).outs =
      (runLoopFrom (processEntry load measure (args.dropLast.dropLast.take 4)
        (args.dropLast.dropLast.drop 4)) 0 (diff.differences.getD [])).1 ∧
    (main args dirExists diff load measure).err =
      (runLoopFrom (processEntry load measure (args.dropLast.dropLast.take 4)
        (args.dropLast.dropLast.drop 4)) 0 (diff.differences.getD [])).2 ∧
    (main args dirExists diff load measure).fsOps =
      clearOps dirExists ++ (main args dirExists diff load measure).outs.map
        (fun o => FSOp.write o.name) ∧
    (main args dirExists diff load measure).exitCode =
      (if (runLoopFrom (processEntry load measure (args.dropLast.dropLast.take 4)
        (args.dropLast.dropLast.drop 4)) 0 (diff.differences.getD [])).2.isSome
       then 1 else 0) := by
  simp [main, h]

lemma annMain_final (args : List String) (dirExists : Bool) (diff : DiffReport)
    (load : String → Except String String) (measure : String → Int × Int)
    (prev : Option (List String)) (h : ¬ args.length < 3)
    (hprev : prev.isSome = dirExists) :
    applyOps prev (main args dirExists diff load measure).fsOps =
      some ((main args dirExists diff load measure).outs.map (fun o => o.name)) := by
  obtain ⟨-, houts, -, hops, -⟩ := annMain_fields args dirExists diff load measure h
  rw [hops, applyOps_append, applyOps_clear dirExists prev hprev]
  have hmm : (main args dirExists diff load measure).outs.map
      (fun o => FSOp.write o.name) =
      ((main args dirExists diff load measure).outs.map (fun o => o.name)).map
        FSOp.write := by
    simp [List.map_map, Function.comp]
  rw [hmm]
  have hnd : ((main args dirExists diff load measure).outs.map
      (fun o => o.name)).Nodup := by
    rw [houts]
    exact runLoopFrom_names_nodup _
      (annotations_step_idx load measure (args.dropLast.dropLast.take 4)
        (args.dropLast.dropLast.drop 4))
      (annotations_step_name load measure (args.dropLast.dropLast.take 4)
        (args.dropLast.dropLast.drop 4))
      (diff.differences.getD []) 0
  rw [applyOps_writes _ [] hnd (fun n _ hn => (List.not_mem_nil n) hn)]
  simp

end Annotations

namespace App

lemma appMain_fields (args : List String) (dirExists : Bool) (diff : DiffReport)
    (load : String → Except String String) (measure : String → Int × Int)
    (h : ¬ args.length < 3) :
    (main args dirExists diff load measure).usageError = false ∧
    (main args dirExists diff load measure).outs =
      (runLoopFrom (processEntry load measure (args.dropLast.dropLast.take 4)
        (args.dropLast.dropLast.drop 4)) 0 (diff.differences.getD [])).1 ∧
    (main args dirExists diff load measure).err =
      (runLoopFrom (processEntry load measure (args.dropLast.dropLast.take 4)
        (args.dropLast.dropLast.drop 4)) 0 (diff.differences.getD [])).2 ∧
    (main args dirExists diff load measure).fsOps =
      clearOps dirExists ++ (main args dirExists diff load measure).outs.map
        (fun o => FSOp.write o.name) ∧
    (main args dirExists diff load measure).exitCode =
      (if (runLoopFrom (processEntry load measure (args.dropLast.dropLast.take 4)
        (args.dropLast.dropLast.drop 4)) 0 (diff.differences.getD [])).2.isSome
       then 1 else 0) := by
  simp [main, h]

lemma appMain_final (args : List String) (dirExists : Bool) (diff : DiffReport)
    (load : String → Except String String) (measure : String → Int × Int)
    (prev : Option (List String)) (h : ¬ args.length < 3)
    (hprev : prev.isSome = dirExists) :
    applyOps prev (main args dirExists diff load measure).fsOps =
      some ((main args dirExists diff load measure).outs.map (fun o => o.name)) := by
  obtain ⟨-, houts, -, hops, -⟩ := appMain_fields args dirExists diff load measure h
  rw [hops, applyOps_append, applyOps_clear dirExists prev hprev]
  have hmm : (main args dirExists diff load measure).outs.map
      (fun o => FSOp.write o.name) =
      ((main args dirExists diff load measure).outs.map (fun o => o.name)).map
        FSOp.write := by
    simp [List.map_map, Function.comp]
  rw [hmm]
  have hnd : ((main args dirExists diff load measure).outs.map
      (fun o => o.name)).Nodup := by
    rw [houts]
    exact runLoopFrom_names_nodup _
      (app_step_idx load measure (args.dropLast.dropLast.take 4)
        (args.dropLast.dropLast.drop 4))
      (app_step_name load measure (args.dropLast.dropLast.take 4)
        (args.dropLast.dropLast.drop 4))
      (diff.differences.getD []) 0
  rw [applyOps_writes _ [] hnd (fun n _ hn => (List.not_mem_nil n) hn)]
  simp

end App

/-! ### Concrete fixtures used by the witnesses -/

/-- A loader that succeeds on every path (all image files readable). -/
def load0 : String → Except String String := fun s => Except.ok s

/-- A text-measurement function: 10 px per character wide, 20 px tall. -/
def measure0 : String → Int × Int := fun s => (10 * (s.length : Int), 20)

def renders0 : List String := ["A.png", "B.png", "C.png", "D.png"]

def references0 : List String := ["X.png"]

/-- An entry whose `renderIndex` (9) is out of range for four renders. -/
def badEntry : DiffEntry :=
  ⟨some 9, some 0, some (JVal.list ["z"]), none, some (10, 10, 50, 50), some "high"⟩

/-- An in-range entry. -/
def goodEntry : DiffEntry :=
  ⟨some 0, some 0, some (JVal.list ["missing texture"]), none,
    some (10, 10, 50, 50), some "high"⟩

/-- An entry with both index keys absent. -/
def noIndexEntry : DiffEntry :=
  ⟨none, none, some (JVal.list ["z"]), none, some (10, 10, 50, 50), none⟩

/-- An in-range entry with an unrecognized severity value. -/
def criticalEntry : DiffEntry :=
  ⟨some 0, some 0, some (JVal.list ["seam"]), none, some (0, 500, 50, 50),
    some "critical"⟩

/-- An in-range entry with no severity key. -/
def greenEntry : DiffEntry :=
  ⟨some 0, some 0, some (JVal.list ["hole"]), none, some (0, 500, 50, 50),
    none⟩

/-- An entry whose `issues` is the bare empty string and whose singular
`issue` key is set. -/
def emptyStrEntry : DiffEntry :=
  ⟨some 0, some 0, some (JVal.str ""), some (JVal.str "fix seam"),
    some (10, 10, 50, 50), none⟩

/-- As `emptyStrEntry` but with `issues` the one-element list of the empty
string. -/
def emptyListEntry : DiffEntry :=
  ⟨some 0, some 0, some (JVal.list [""]), some (JVal.str "fix seam"),
    some (10, 10, 50, 50), none⟩

/-! ### Claims -/

/-- C1: every diff entry whose `renderIndex` or `referenceIndex` is out of
bounds for its list (negative or at least the list length) is skipped
entirely in both variants: its per-entry processing returns no file and no
error, the loop over the remaining entries continues exactly as if the
entry were not there (at unchanged ordinals), and no output carries the
skipped ordinal. -/
theorem claim_C1 (load : String → Except String String)
    (measure : String → Int × Int) (renders references : List String)
    (entry : DiffEntry) (k : Nat) (rest : List DiffEntry)
    (h : outOfRange renders references entry) :
    (Annotations.processEntry load measure renders references k entry =
        Except.ok none ∧
      runLoopFrom (Annotations.processEntry load measure renders references) k
          (entry :: rest) =
        runLoopFrom (Annotations.processEntry load measure renders references)
          (k + 1) rest ∧
      ∀ o ∈ (runLoopFrom (Annotations.processEntry load measure renders references)
          k (entry :: rest)).1, o.idx ≠ k) ∧
    (App.processEntry load measure renders references k entry = Except.ok none ∧
      runLoopFrom (App.processEntry load measure renders references) k
          (entry :: rest) =
        runLoopFrom (App.processEntry load measure renders references)
          (k + 1) rest ∧
      ∀ o ∈ (runLoopFrom (App.processEntry load measure renders references) k
          (entry :: rest)).1, o.idx ≠ k) := by
  have hA := Annotations.annEntry_skip load measure renders references k entry h
  have hB := App.appEntry_skip load measure renders references k entry h
  have heA := runLoopFrom_skip
    (Annotations.processEntry load measure renders references) rest hA
  have heB := runLoopFrom_skip
    (App.processEntry load measure renders references) rest hB
  refine ⟨⟨hA, heA, ?_⟩, hB, heB, ?_⟩
  · intro o ho
    rw [heA] at ho
    have := runLoopFrom_idx_bounds
      (Annotations.processEntry load measure renders references)
      (annotations_step_idx load measure renders references) rest (k + 1) o ho
    omega
  · intro o ho
    rw [heB] at ho
    have := runLoopFrom_idx_bounds
      (App.processEntry load measure renders references)
      (app_step_idx load measure renders references) rest (k + 1) o ho
    omega

theorem claim_C1_witness :
    outOfRange renders0 references0 badEntry ∧
    ((Annotations.processEntry load0 measure0 renders0 references0 0 badEntry =
        Except.ok none ∧
      runLoopFrom (Annotations.processEntry load0 measure0 renders0 references0) 0
          (badEntry :: [goodEntry]) =
        runLoopFrom (Annotations.processEntry load0 measure0 renders0 references0)
          (0 + 1) [goodEntry] ∧
      ∀ o ∈ (runLoopFrom (Annotations.processEntry load0 measure0 renders0
          references0) 0 (badEntry :: [goodEntry])).1, o.idx ≠ 0) ∧
    (App.processEntry load0 measure0 renders0 references0 0 badEntry =
        Except.ok none ∧
      runLoopFrom (App.processEntry load0 measure0 renders0 references0) 0
          (badEntry :: [goodEntry]) =
        runLoopFrom (App.processEntry load0 measure0 renders0 references0)
          (0 + 1) [goodEntry] ∧
      ∀ o ∈ (runLoopFrom (App.processEntry load0 measure0 renders0 references0) 0
          (badEntry :: [goodEntry])).1, o.idx ≠ 0)) :=
  ⟨by decide,
    claim_C1 load0 measure0 renders0 references0 badEntry 0 [goodEntry] (by decide)⟩

/-- C9: a diff entry that omits `renderIndex` or `referenceIndex` gets the
default `-1` for the missing key, which makes the out-of-range test fire, so
the entry is silently skipped exactly like an out-of-range entry in both
variants: no output file with its ordinal, no error, and the loop continues
over the remaining entries. -/
theorem claim_C9 (load : String → Except String String)
    (measure : String → Int × Int) (renders references : List String)
    (entry : DiffEntry) (k : Nat) (rest : List DiffEntry)
    (h : entry.renderIndex = none ∨ entry.referenceIndex = none) :
    (entry.renderIndex = none → entry.renderIndex.getD (-1) = -1) ∧
    (entry.referenceIndex = none → entry.referenceIndex.getD (-1) = -1) ∧
    outOfRange renders references entry ∧
    (Annotations.processEntry load measure renders references k entry =
        Except.ok none ∧
      runLoopFrom (Annotations.processEntry load measure renders references) k
          (entry :: rest) =
        runLoopFrom (Annotations.processEntry load measure renders references)
          (k + 1) rest ∧
      ∀ o ∈ (runLoopFrom (Annotations.processEntry load measure renders references)
          k (entry :: rest)).1, o.idx ≠ k) ∧
    (App.processEntry load measure renders references k entry = Except.ok none ∧
      runLoopFrom (App.processEntry load measure renders references) k
          (entry :: rest) =
        runLoopFrom (App.processEntry load measure renders references)
          (k + 1) rest ∧
      ∀ o ∈ (runLoopFrom (App.processEntry load measure renders references) k
          (entry :: rest)).1, o.idx ≠ k) := by
  have hoor : outOfRange renders references entry := by
    rcases h with h | h
    · exact Or.inl (by rw [h]; decide)
    · exact Or.inr (Or.inr (Or.inl (by rw [h]; decide)))
  have hA := Annotations.annEntry_skip load measure renders references k entry hoor
  have hB := App.appEntry_skip load measure renders references k entry hoor
  have heA := runLoopFrom_skip
    (Annotations.processEntry load measure renders references) rest hA
  have heB := runLoopFrom_skip
    (App.processEntry load measure renders references) rest hB
  refine ⟨fun hr => by rw [hr]; rfl, fun hf => by rw [hf]; rfl, hoor,
    ⟨hA, heA, ?_⟩, hB, heB, ?_⟩
  · intro o ho
    rw [heA] at ho
    have := runLoopFrom_idx_bounds
      (Annotations.processEntry load measure renders references)
      (annotations_step_idx load measure renders references) rest (k + 1) o ho
    omega
  · intro o ho
    rw [heB] at ho
    have := runLoopFrom_idx_bounds
      (App.processEntry load measure renders references)
      (app_step_idx load measure renders references) rest (k + 1) o ho
    omega

theorem claim_C9_witness :
    (noIndexEntry.renderIndex = none ∨ noIndexEntry.referenceIndex = none) ∧
    ((noIndexEntry.renderIndex = none → noIndexEntry.renderIndex.getD (-1) = -1) ∧
    (noIndexEntry.referenceIndex = none →
      noIndexEntry.referenceIndex.getD (-1) = -1) ∧
    outOfRange renders0 references0 noIndexEntry ∧
    (Annotations.processEntry load0 measure0 renders0 references0 0 noIndexEntry =
        Except.ok none ∧
      runLoopFrom (Annotations.processEntry load0 measure0 renders0 references0) 0
          (noIndexEntry :: [goodEntry]) =
        runLoopFrom (Annotations.processEntry load0 measure0 renders0 references0)
          (0 + 1) [goodEntry] ∧
      ∀ o ∈ (runLoopFrom (Annotations.processEntry load0 measure0 renders0
          references0) 0 (noIndexEntry :: [goodEntry])).1, o.idx ≠ 0) ∧
    (App.processEntry load0 measure0 renders0 references0 0 noIndexEntry =
        Except.ok none ∧
      runLoopFrom (App.processEntry load0 measure0 renders0 references0) 0
          (noIndexEntry :: [goodEntry]) =
        runLoopFrom (App.processEntry load0 measure0 renders0 references0)
          (0 + 1) [goodEntry] ∧
      ∀ o ∈ (runLoopFrom (App.processEntry load0 measure0 renders0 references0) 0
          (noIndexEntry :: [goodEntry])).1, o.idx ≠ 0)) :=
  ⟨Or.inl rfl,
    claim_C9 load0 measure0 renders0 references0 noIndexEntry 0 [goodEntry]
      (Or.inl rfl)⟩

/-- C5: invoked with fewer than 3 positional arguments, both scripts take
the usage-error path: usage is reported, the process exits with the nonzero
status 1, and no filesystem operation is performed, so any prior state of
the output directory is unchanged. -/
theorem claim_C5 (args : List String) (dirExists : Bool) (diff : DiffReport)
    (load : String → Except String String) (measure : String → Int × Int)
    (prev : Option (List String)) (h : args.length < 3) :
    (Annotations.main args dirExists diff load measure).usageError = true ∧
    (Annotations.main args dirExists diff load measure).exitCode ≠ 0 ∧
    (Annotations.main args dirExists diff load measure).fsOps = [] ∧
    applyOps prev (Annotations.main args dirExists diff load measure).fsOps =
      prev ∧
    (App.main args dirExists diff load measure).usageError = true ∧
    (App.main args dirExists diff load measure).exitCode ≠ 0 ∧
    (App.main args dirExists diff load measure).fsOps = [] ∧
    applyOps prev (App.main args dirExists diff load measure).fsOps = prev := by
  simp [Annotations.main, App.main, h, applyOps]

theorem claim_C5_witness :
    (["render.png", "diff.json"] : List String).length < 3 ∧
    ((Annotations.main ["render.png", "diff.json"] true ⟨none⟩ load0
        measure0).usageError = true ∧
    (Annotations.main ["render.png", "diff.json"] true ⟨none⟩ load0
        measure0).exitCode ≠ 0 ∧
    (Annotations.main ["render.png", "diff.json"] true ⟨none⟩ load0
        measure0).fsOps = [] ∧
    applyOps (some ["stale.png"]) (Annotations.main ["render.png", "diff.json"]
        true ⟨none⟩ load0 measure0).fsOps = some ["stale.png"] ∧
    (App.main ["render.png", "diff.json"] true ⟨none⟩ load0
        measure0).usageError = true ∧
    (App.main ["render.png", "diff.json"] true ⟨none⟩ load0
        measure0).exitCode ≠ 0 ∧
    (App.main ["render.png", "diff.json"] true ⟨none⟩ load0
        measure0).fsOps = [] ∧
    applyOps (some ["stale.png"]) (App.main ["render.png", "diff.json"] true
        ⟨none⟩ load0 measure0).fsOps = some ["stale.png"]) :=
  ⟨by decide,
    claim_C5 ["render.png", "diff.json"] true ⟨none⟩ load0 measure0
      (some ["stale.png"]) (by decide)⟩

/-- C10: a decoded diff document whose top-level `differences` key is
missing (or holds an empty sequence) makes both scripts complete normally:
no usage error, exit status 0, no unhandled error, no output images, and
the output directory afterwards exists and is empty. -/
theorem claim_C10 (args : List String) (dirExists : Bool) (diff : DiffReport)
    (load : String → Except String String) (measure : String → Int × Int)
    (prev : Option (List String)) (hargs : 3 ≤ args.length)
    (hprev : prev.isSome = dirExists)
    (hdiff : diff.differences = none ∨ diff.differences = some []) :
    (Annotations.main args dirExists diff load measure).usageError = false ∧
    (Annotations.main args dirExists diff load measure).exitCode = 0 ∧
    (Annotations.main args dirExists diff load measure).err = none ∧
    (Annotations.main args dirExists diff load measure).outs = [] ∧
    applyOps prev (Annotations.main args dirExists diff load measure).fsOps =
      some [] ∧
    (App.main args dirExists diff load measure).usageError = false ∧
    (App.main args dirExists diff load measure).exitCode = 0 ∧
    (App.main args dirExists diff load measure).err = none ∧
    (App.main args dirExists diff load measure).outs = [] ∧
    applyOps prev (App.main args dirExists diff load measure).fsOps = some [] := by
  have hlt : ¬ args.length < 3 := by omega
  have hent : diff.differences.getD [] = [] := by
    rcases hdiff with h | h <;> simp [h]
  obtain ⟨huA, houtsA, herrA, -, hexitA⟩ :=
    Annotations.annMain_fields args dirExists diff load measure hlt
  obtain ⟨huB, houtsB, herrB, -, hexitB⟩ :=
    App.appMain_fields args dirExists diff load measure hlt
  rw [hent] at houtsA herrA hexitA houtsB herrB hexitB
  simp only [runLoopFrom] at houtsA herrA hexitA houtsB herrB hexitB
  have hfinA := Annotations.annMain_final args dirExists diff load measure prev hlt hprev
  have hfinB := App.appMain_final args dirExists diff load measure prev hlt hprev
  rw [houtsA] at hfinA
  rw [houtsB] at hfinB
  simp only [List.map_nil] at hfinA hfinB
  exact ⟨huA, by rw [hexitA]; rfl, herrA, houtsA, hfinA,
    huB, by rw [hexitB]; rfl, herrB, houtsB, hfinB⟩

theorem claim_C10_witness :
    3 ≤ (["r.png", "diff.json", "out"] : List String).length ∧
    (none : Option (List String)).isSome = false ∧
    ((⟨none⟩ : DiffReport).differences = none ∨
      (⟨none⟩ : DiffReport).differences = some []) ∧
    ((Annotations.main ["r.png", "diff.json", "out"] false ⟨none⟩ load0
        measure0).usageError = false ∧
    (Annotations.main ["r.png", "diff.json", "out"] false ⟨none⟩ load0
        measure0).exitCode = 0 ∧
    (Annotations.main ["r.png", "diff.json", "out"] false ⟨none⟩ load0
        measure0).err = none ∧
    (Annotations.main ["r.png", "diff.json", "out"] false ⟨none⟩ load0
        measure0).outs = [] ∧
    applyOps none (Annotations.main ["r.png", "diff.json", "out"] false ⟨none⟩
        load0 measure0).fsOps = some [] ∧
    (App.main ["r.png", "diff.json", "out"] false ⟨none⟩ load0
        measure0).usageError = false ∧
    (App.main ["r.png", "diff.json", "out"] false ⟨none⟩ load0
        measure0).exitCode = 0 ∧
    (App.main ["r.png", "diff.json", "out"] false ⟨none⟩ load0
        measure0).err = none ∧
    (App.main ["r.png", "diff.json", "out"] false ⟨none⟩ load0
        measure0).outs = [] ∧
    applyOps none (App.main ["r.png", "diff.json", "out"] false ⟨none⟩ load0
        measure0).fsOps = some []) :=
  ⟨by decide, rfl, Or.inl rfl,
    claim_C10 ["r.png", "diff.json", "out"] false ⟨none⟩ load0 measure0 none
      (by decide) rfl (Or.inl rfl)⟩

/-- Output characterization of the per-entry loop: every in-range entry
yields exactly one file whose name is built from its ordinal and resolved
indices; skipped ordinals never appear in any filename; filenames are
pairwise distinct. -/
lemma loop_output_spec (renders references : List String)
    (step : Nat → DiffEntry → Except String (Option OutFile))
    (hchar : ∀ k entry o, step k entry = Except.ok (some o) →
      o.idx = k ∧ o.r = (entry.renderIndex.getD (-1)).toNat ∧
      o.f = (entry.referenceIndex.getD (-1)).toNat ∧
      o.name = mkName k (entry.renderIndex.getD (-1)).toNat
        (entry.referenceIndex.getD (-1)).toNat)
    (hskip : ∀ k entry, outOfRange renders references entry →
      step k entry = Except.ok none)
    (hnoskip : ∀ k entry, ¬ outOfRange renders references entry →
      step k entry ≠ Except.ok none)
    (entries : List DiffEntry)
    (herr : (runLoopFrom step 0 entries).2 = none) :
    (∀ (i : Nat) (hi : i < entries.length),
      ¬ outOfRange renders references (entries.get ⟨i, hi⟩) →
      ((runLoopFrom step 0 entries).1.map (fun o => o.name)).count
        (mkName i ((entries.get ⟨i, hi⟩).renderIndex.getD (-1)).toNat
          ((entries.get ⟨i, hi⟩).referenceIndex.getD (-1)).toNat) = 1) ∧
    (∀ (i : Nat) (hi : i < entries.length),
      outOfRange renders references (entries.get ⟨i, hi⟩) →
      ∀ r' f', mkName i r' f' ∉
        (runLoopFrom step 0 entries).1.map (fun o => o.name)) ∧
    ((runLoopFrom step 0 entries).1.map (fun o => o.name)).Nodup := by
  have hidx : ∀ k entry o, step k entry = Except.ok (some o) → o.idx = k :=
    fun k entry o h => (hchar k entry o h).1
  have hname : ∀ k entry o, step k entry = Except.ok (some o) →
      o.name = mkName o.idx o.r o.f := by
    intro k entry o h
    obtain ⟨h1, h2, h3, h4⟩ := hchar k entry o h
    rw [h4, h1, h2, h3]
  have hnd := runLoopFrom_names_nodup step hidx hname entries 0
  refine ⟨?_, ?_, hnd⟩
  · intro i hi hoor
    obtain ⟨res, hres, hmem⟩ := runLoopFrom_intro step entries 0 herr i hi
    rw [Nat.zero_add] at hres
    cases res with
    | none => exact absurd hres (hnoskip i (entries.get ⟨i, hi⟩) hoor)
    | some o =>
      have hmemo := hmem o rfl
      obtain ⟨-, -, -, hnameo⟩ := hchar i (entries.get ⟨i, hi⟩) o hres
      have hmemname : mkName i ((entries.get ⟨i, hi⟩).renderIndex.getD (-1)).toNat
          ((entries.get ⟨i, hi⟩).referenceIndex.getD (-1)).toNat ∈
          (runLoopFrom step 0 entries).1.map (fun o => o.name) := by
        rw [← hnameo]
        exact List.mem_map_of_mem (fun o => o.name) hmemo
      exact List.count_eq_one_of_mem hnd hmemname
  · intro i hi hoor r' f' hmemname
    obtain ⟨o, hmemo, hname_eq⟩ := List.mem_map.1 hmemname
    obtain ⟨j, hj, hstep_j⟩ := runLoopFrom_mem_elim step entries 0 o hmemo
    rw [Nat.zero_add] at hstep_j
    obtain ⟨-, -, -, hnameo⟩ := hchar j (entries.get ⟨j, hj⟩) o hstep_j
    rw [hnameo] at hname_eq
    obtain ⟨rfl, -, -⟩ := mkName_inj hname_eq
    rw [hskip j (entries.get ⟨j, hj⟩) hoor] at hstep_j
    simp at hstep_j

/-- C2: in both variants, every processed (in-range) diff entry produces
exactly one output file, named `annot_{idx}_r{r}_ref{f}.png` from the
entry's zero-based ordinal `idx` in the `differences` sequence and its
resolved indices; ordinals are not re-compacted, a skipped entry's ordinal
appears in no produced filename, and all produced filenames are distinct. -/
theorem claim_C2 (load : String → Except String String)
    (measure : String → Int × Int) (renders references : List String)
    (entries : List DiffEntry) :
    ((runLoopFrom (Annotations.processEntry load measure renders references) 0
        entries).2 = none →
      (∀ (i : Nat) (hi : i < entries.length),
        ¬ outOfRange renders references (entries.get ⟨i, hi⟩) →
        ((runLoopFrom (Annotations.processEntry load measure renders references)
            0 entries).1.map (fun o => o.name)).count
          (mkName i ((entries.get ⟨i, hi⟩).renderIndex.getD (-1)).toNat
            ((entries.get ⟨i, hi⟩).referenceIndex.getD (-1)).toNat) = 1) ∧
      (∀ (i : Nat) (hi : i < entries.length),
        outOfRange renders references (entries.get ⟨i, hi⟩) →
        ∀ r' f', mkName i r' f' ∉
          (runLoopFrom (Annotations.processEntry load measure renders references)
            0 entries).1.map (fun o => o.name)) ∧
      ((runLoopFrom (Annotations.processEntry load measure renders references) 0
        entries).1.map (fun o => o.name)).Nodup) ∧
    ((runLoopFrom (App.processEntry load measure renders references) 0
        entries).2 = none →
      (∀ (i : Nat) (hi : i < entries.length),
        ¬ outOfRange renders references (entries.get ⟨i, hi⟩) →
        ((runLoopFrom (App.processEntry load measure renders references)
            0 entries).1.map (fun o => o.name)).count
          (mkName i ((entries.get ⟨i, hi⟩).renderIndex.getD (-1)).toNat
            ((entries.get ⟨i, hi⟩).referenceIndex.getD (-1)).toNat) = 1) ∧
      (∀ (i : Nat) (hi : i < entries.length),
        outOfRange renders references (entries.get ⟨i, hi⟩) →
        ∀ r' f', mkName i r' f' ∉
          (runLoopFrom (App.processEntry load measure renders references)
            0 entries).1.map (fun o => o.name)) ∧
      ((runLoopFrom (App.processEntry load measure renders references) 0
        entries).1.map (fun o => o.name)).Nodup) := by
  constructor
  · intro herr
    exact loop_output_spec renders references
      (Annotations.processEntry load measure renders references)
      (fun k entry o h => (Annotations.annEntry_ok_some h).2)
      (fun k entry h => Annotations.annEntry_skip load measure renders
        references k entry h)
      (fun k entry h => Annotations.annEntry_not_skip h)
      entries herr
  · intro herr
    exact loop_output_spec renders references
      (App.processEntry load measure renders references)
      (fun k entry o h => (App.appEntry_ok_some h).2)
      (fun k entry h => App.appEntry_skip load measure renders
        references k entry h)
      (fun k entry h => App.appEntry_not_skip h)
      entries herr

theorem claim_C2_witness :
    (runLoopFrom (Annotations.processEntry load0 measure0 renders0 references0)
      0 [goodEntry, badEntry]).2 = none ∧
    (0 : Nat) < ([goodEntry, badEntry] : List DiffEntry).length ∧
    ¬ outOfRange renders0 references0
      (([goodEntry, badEntry] : List DiffEntry).get ⟨0, by decide⟩) ∧
    ((runLoopFrom (Annotations.processEntry load0 measure0 renders0 references0)
        0 [goodEntry, badEntry]).1.map (fun o => o.name)).count
      (mkName 0 ((([goodEntry, badEntry] : List DiffEntry).get
          ⟨0, by decide⟩).renderIndex.getD (-1)).toNat
        ((([goodEntry, badEntry] : List DiffEntry).get
          ⟨0, by decide⟩).referenceIndex.getD (-1)).toNat) = 1 ∧
    ((runLoopFrom (App.processEntry load0 measure0 renders0 references0)
        0 [goodEntry, badEntry]).1.map (fun o => o.name)).Nodup :=
  ⟨by decide, by decide, by decide,
    ((claim_C2 load0 measure0 renders0 references0 [goodEntry, badEntry]).1
      (by decide)).1 0 (by decide) (by decide),
    ((claim_C2 load0 measure0 renders0 references0 [goodEntry, badEntry]).2
      (by decide)).2.2⟩

/-- C3: with at least 3 arguments, both variants first clear and recreate
the output directory and only then write output files, and the resulting
directory contents are exactly the run's own output filenames, independent
of whatever the directory held before. -/
theorem claim_C3 (args : List String) (dirExists : Bool) (diff : DiffReport)
    (load : String → Except String String) (measure : String → Int × Int)
    (prev : Option (List String)) (hargs : 3 ≤ args.length)
    (hprev : prev.isSome = dirExists) :
    ((Annotations.main args dirExists diff load measure).fsOps =
        clearOps dirExists ++
          (Annotations.main args dirExists diff load measure).outs.map
            (fun o => FSOp.write o.name) ∧
      applyOps prev (Annotations.main args dirExists diff load measure).fsOps =
        some ((Annotations.main args dirExists diff load measure).outs.map
          (fun o => o.name))) ∧
    ((App.main args dirExists diff load measure).fsOps =
        clearOps dirExists ++
          (App.main args dirExists diff load measure).outs.map
            (fun o => FSOp.write o.name) ∧
      applyOps prev (App.main args dirExists diff load measure).fsOps =
        some ((App.main args dirExists diff load measure).outs.map
          (fun o => o.name))) := by
  have hlt : ¬ args.length < 3 := by omega
  exact ⟨⟨(Annotations.annMain_fields args dirExists diff load measure hlt).2.2.2.1,
      Annotations.annMain_final args dirExists diff load measure prev hlt hprev⟩,
    (App.appMain_fields args dirExists diff load measure hlt).2.2.2.1,
    App.appMain_final args dirExists diff load measure prev hlt hprev⟩

theorem claim_C3_witness :
    3 ≤ (["A.png", "B.png", "C.png", "D.png", "X.png", "diff.json", "out"] :
      List String).length ∧
    (some ["stale.png"] : Option (List String)).isSome = true ∧
    (((Annotations.main ["A.png", "B.png", "C.png", "D.png", "X.png",
          "diff.json", "out"] true ⟨some [goodEntry, badEntry]⟩ load0
          measure0).fsOps =
        clearOps true ++
          (Annotations.main ["A.png", "B.png", "C.png", "D.png", "X.png",
            "diff.json", "out"] true ⟨some [goodEntry, badEntry]⟩ load0
            measure0).outs.map (fun o => FSOp.write o.name) ∧
      applyOps (some ["stale.png"])
          (Annotations.main ["A.png", "B.png", "C.png", "D.png", "X.png",
            "diff.json", "out"] true ⟨some [goodEntry, badEntry]⟩ load0
            measure0).fsOps =
        some ((Annotations.main ["A.png", "B.png", "C.png", "D.png", "X.png",
          "diff.json", "out"] true ⟨some [goodEntry, badEntry]⟩ load0
          measure0).outs.map (fun o => o.name))) ∧
    ((App.main ["A.png", "B.png", "C.png", "D.png", "X.png", "diff.json",
          "out"] true ⟨some [goodEntry, badEntry]⟩ load0 measure0).fsOps =
        clearOps true ++
          (App.main ["A.png", "B.png", "C.png", "D.png", "X.png", "diff.json",
            "out"] true ⟨some [goodEntry, badEntry]⟩ load0 measure0).outs.map
            (fun o => FSOp.write o.name) ∧
      applyOps (some ["stale.png"])
          (App.main ["A.png", "B.png", "C.png", "D.png", "X.png", "diff.json",
            "out"] true ⟨some [goodEntry, badEntry]⟩ load0 measure0).fsOps =
        some ((App.main ["A.png", "B.png", "C.png", "D.png", "X.png",
          "diff.json", "out"] true ⟨some [goodEntry, badEntry]⟩ load0
          measure0).outs.map (fun o => o.name)))) :=
  ⟨by decide, rfl,
    claim_C3 ["A.png", "B.png", "C.png", "D.png", "X.png", "diff.json", "out"]
      true ⟨some [goodEntry, badEntry]⟩ load0 measure0 (some ["stale.png"])
      (by decide) rfl⟩

/-- C8: with the same arguments, diff report, loader and text measurement,
both variants produce the same outputs whether or not the output directory
already existed, the resulting directory state is the same regardless of
its prior contents, and re-running on the directory produced by a first run
leaves it unchanged (the produced file set is idempotent; pixel content in
the embedding is a deterministic function of the same inputs). -/
theorem claim_C8 (args : List String) (diff : DiffReport)
    (load : String → Except String String) (measure : String → Int × Int)
    (d₁ d₂ : Bool) (p₁ p₂ : Option (List String)) (hargs : 3 ≤ args.length)
    (h₁ : p₁.isSome = d₁) (h₂ : p₂.isSome = d₂) :
    ((Annotations.main args d₁ diff load measure).outs =
        (Annotations.main args d₂ diff load measure).outs ∧
      applyOps p₁ (Annotations.main args d₁ diff load measure).fsOps =
        applyOps p₂ (Annotations.main args d₂ diff load measure).fsOps ∧
      applyOps (applyOps p₁ (Annotations.main args d₁ diff load measure).fsOps)
          (Annotations.main args true diff load measure).fsOps =
        applyOps p₁ (Annotations.main args d₁ diff load measure).fsOps) ∧
    ((App.main args d₁ diff load measure).outs =
        (App.main args d₂ diff load measure).outs ∧
      applyOps p₁ (App.main args d₁ diff load measure).fsOps =
        applyOps p₂ (App.main args d₂ diff load measure).fsOps ∧
      applyOps (applyOps p₁ (App.main args d₁ diff load measure).fsOps)
          (App.main args true diff load measure).fsOps =
        applyOps p₁ (App.main args d₁ diff load measure).fsOps) := by
  have hlt : ¬ args.length < 3 := by omega
  have houtsA : ∀ d d' : Bool,
      (Annotations.main args d diff load measure).outs =
        (Annotations.main args d' diff load measure).outs := by
    intro d d'
    rw [(Annotations.annMain_fields args d diff load measure hlt).2.1,
      (Annotations.annMain_fields args d' diff load measure hlt).2.1]
  have houtsB : ∀ d d' : Bool,
      (App.main args d diff load measure).outs =
        (App.main args d' diff load measure).outs := by
    intro d d'
    rw [(App.appMain_fields args d diff load measure hlt).2.1,
      (App.appMain_fields args d' diff load measure hlt).2.1]
  refine ⟨⟨houtsA d₁ d₂, ?_, ?_⟩, houtsB d₁ d₂, ?_, ?_⟩
  · rw [Annotations.annMain_final args d₁ diff load measure p₁ hlt h₁,
      Annotations.annMain_final args d₂ diff load measure p₂ hlt h₂,
      houtsA d₁ d₂]
  · rw [Annotations.annMain_final args d₁ diff load measure p₁ hlt h₁,
      Annotations.annMain_final args true diff load measure
        (some ((Annotations.main args d₁ diff load measure).outs.map
          (fun o => o.name))) hlt rfl,
      houtsA true d₁]
  · rw [App.appMain_final args d₁ diff load measure p₁ hlt h₁,
      App.appMain_final args d₂ diff load measure p₂ hlt h₂,
      houtsB d₁ d₂]
  · rw [App.appMain_final args d₁ diff load measure p₁ hlt h₁,
      App.appMain_final args true diff load measure
        (some ((App.main args d₁ diff load measure).outs.map
          (fun o => o.name))) hlt rfl,
      houtsB true d₁]

theorem claim_C8_witness :
    3 ≤ (["A.png", "B.png", "C.png", "D.png", "X.png", "diff.json", "out"] :
      List String).length ∧
    (none : Option (List String)).isSome = false ∧
    (some ["old.png"] : Option (List String)).isSome = true ∧
    (((Annotations.main ["A.png", "B.png", "C.png", "D.png", "X.png",
          "diff.json", "out"] false ⟨some [goodEntry]⟩ load0 measure0).outs =
        (Annotations.main ["A.png", "B.png", "C.png", "D.png", "X.png",
          "diff.json", "out"] true ⟨some [goodEntry]⟩ load0 measure0).outs ∧
      applyOps none (Annotations.main ["A.png", "B.png", "C.png", "D.png",
          "X.png", "diff.json", "out"] false ⟨some [goodEntry]⟩ load0
          measure0).fsOps =
        applyOps (some ["old.png"]) (Annotations.main ["A.png", "B.png",
          "C.png", "D.png", "X.png", "diff.json", "out"] true
          ⟨some [goodEntry]⟩ load0 measure0).fsOps ∧
      applyOps (applyOps none (Annotations.main ["A.png", "B.png", "C.png",
            "D.png", "X.png", "diff.json", "out"] false ⟨some [goodEntry]⟩
            load0 measure0).fsOps)
          (Annotations.main ["A.png", "B.png", "C.png", "D.png", "X.png",
            "diff.json", "out"] true ⟨some [goodEntry]⟩ load0 measure0).fsOps =
        applyOps none (Annotations.main ["A.png", "B.png", "C.png", "D.png",
          "X.png", "diff.json", "out"] false ⟨some [goodEntry]⟩ load0
          measure0).fsOps) ∧
    ((App.main ["A.png", "B.png", "C.png", "D.png", "X.png", "diff.json",
          "out"] false ⟨some [goodEntry]⟩ load0 measure0).outs =
        (App.main ["A.png", "B.png", "C.png", "D.png", "X.png", "diff.json",
          "out"] true ⟨some [goodEntry]⟩ load0 measure0).outs ∧
      applyOps none (App.main ["A.png", "B.png", "C.png", "D.png", "X.png",
          "diff.json", "out"] false ⟨some [goodEntry]⟩ load0 measure0).fsOps =
        applyOps (some ["old.png"]) (App.main ["A.png", "B.png", "C.png",
          "D.png", "X.png", "diff.json", "out"] true ⟨some [goodEntry]⟩ load0
          measure0).fsOps ∧
      applyOps (applyOps none (App.main ["A.png", "B.png", "C.png", "D.png",
            "X.png", "diff.json", "out"] false ⟨some [goodEntry]⟩ load0
            measure0).fsOps)
          (App.main ["A.png", "B.png", "C.png", "D.png", "X.png", "diff.json",
            "out"] true ⟨some [goodEntry]⟩ load0 measure0).fsOps =
        applyOps none (App.main ["A.png", "B.png", "C.png", "D.png", "X.png",
          "diff.json", "out"] false ⟨some [goodEntry]⟩ load0
          measure0).fsOps)) :=
  ⟨by decide, rfl, rfl,
    claim_C8 ["A.png", "B.png", "C.png", "D.png", "X.png", "diff.json", "out"]
      ⟨some [goodEntry]⟩ load0 measure0 false true none (some ["old.png"])
      (by decide) rfl rfl⟩

/-- C4 (counterexample): an entry with the unrecognized severity value
`"critical"` keeps that value (the resolved severity is not `"low"`), and
the app variant draws its label text in `"red"` — the fallback of the
severity→color map — not in `"green"`, the color mapped from `"low"`.  So
an unrecognized severity does not default to `"low"`. -/
theorem claim_C4_counterexample :
    criticalEntry.severity = some "critical" ∧
    criticalEntry.severity.getD "low" ≠ "low" ∧
    App.processEntry load0 measure0 renders0 references0 0 criticalEntry =
      Except.ok (some ⟨0, 0, 0, "annot_0_r0_ref0.png", "A.png", "X.png",
        [⟨"seam", 0, 472, "red"⟩]⟩) ∧
    ("red" : String) ≠ "green" := by
  refine ⟨rfl, by decide, by decide, by decide⟩

/-- C4 (amended): the severity field defaults to `"low"` only when the key
is absent, in which case the app variant colors label text `"green"`; an
unrecognized severity value is kept as-is and maps to the fallback color
`"red"` of the severity→color dictionary, not to the color of `"low"`. -/
theorem claim_C4_amended (load : String → Except String String)
    (measure : String → Int × Int) (renders references : List String)
    (k : Nat) (entry : DiffEntry) (o : OutFile)
    (h : App.processEntry load measure renders references k entry =
      Except.ok (some o)) :
    (∀ lab ∈ o.labels, lab.fill = colorsGet (entry.severity.getD "low")) ∧
    (entry.severity = none → entry.severity.getD "low" = "low" ∧
      ∀ lab ∈ o.labels, lab.fill = "green") ∧
    (∀ s, entry.severity = some s → entry.severity.getD "low" = s ∧
      (s ≠ "low" → s ≠ "medium" → s ≠ "high" →
        ∀ lab ∈ o.labels, lab.fill = "red")) := by
  have hlab := App.processEntry_labels h
  have hfill : ∀ lab ∈ o.labels,
      lab.fill = colorsGet (entry.severity.getD "low") := by
    rw [hlab]
    exact App.drawLabel_fill measure (entry.bbox.getD (0, 0, 0, 0))
      (entry.severity.getD "low") (toIssueList (entry.issues.getD (JVal.list [])))
  refine ⟨hfill, ?_, ?_⟩
  · intro hnone
    have hgd : entry.severity.getD "low" = "low" := by rw [hnone]; rfl
    exact ⟨hgd, fun lab hl => by rw [hfill lab hl, hgd, colorsGet_low]⟩
  · intro sv hs
    have hgd : entry.severity.getD "low" = sv := by rw [hs]; rfl
    refine ⟨hgd, fun h1 h2 h3 lab hl => ?_⟩
    rw [hfill lab hl, hgd, colorsGet_unrecognized h1 h2 h3]

theorem claim_C4_witness :
    App.processEntry load0 measure0 renders0 references0 0 greenEntry =
      Except.ok (some ⟨0, 0, 0, "annot_0_r0_ref0.png", "A.png", "X.png",
        [⟨"hole", 0, 472, "green"⟩]⟩) ∧
    ((∀ lab ∈ (⟨0, 0, 0, "annot_0_r0_ref0.png", "A.png", "X.png",
        [⟨"hole", 0, 472, "green"⟩]⟩ : OutFile).labels,
      lab.fill = colorsGet (greenEntry.severity.getD "low")) ∧
    (greenEntry.severity = none → greenEntry.severity.getD "low" = "low" ∧
      ∀ lab ∈ (⟨0, 0, 0, "annot_0_r0_ref0.png", "A.png", "X.png",
        [⟨"hole", 0, 472, "green"⟩]⟩ : OutFile).labels, lab.fill = "green") ∧
    (∀ s, greenEntry.severity = some s → greenEntry.severity.getD "low" = s ∧
      (s ≠ "low" → s ≠ "medium" → s ≠ "high" →
        ∀ lab ∈ (⟨0, 0, 0, "annot_0_r0_ref0.png", "A.png", "X.png",
          [⟨"hole", 0, 472, "green"⟩]⟩ : OutFile).labels,
          lab.fill = "red"))) :=
  ⟨by decide,
    claim_C4_amended load0 measure0 renders0 references0 0 greenEntry
      ⟨0, 0, 0, "annot_0_r0_ref0.png", "A.png", "X.png",
        [⟨"hole", 0, 472, "green"⟩]⟩ (by decide)⟩

/-- C6 (counterexample): in the `annotations` variant, two entries that
differ only in `issues` being the bare empty string vs the one-element list
containing the empty string are processed differently: the bare empty
string is falsy, so the `or`-chain falls through to the singular `issue`
key and a `"fix seam"` label is drawn, while `[""]` suppresses that
fallback and no label is drawn. -/
theorem claim_C6_counterexample :
    emptyStrEntry.issues = some (JVal.str "") ∧
    emptyListEntry.issues = some (JVal.list [""]) ∧
    emptyStrEntry.issue = emptyListEntry.issue ∧
    emptyStrEntry.renderIndex = emptyListEntry.renderIndex ∧
    emptyStrEntry.referenceIndex = emptyListEntry.referenceIndex ∧
    emptyStrEntry.bbox = emptyListEntry.bbox ∧
    emptyStrEntry.severity = emptyListEntry.severity ∧
    Annotations.processEntry load0 measure0 renders0 references0 0
        emptyStrEntry ≠
      Annotations.processEntry load0 measure0 renders0 references0 0
        emptyListEntry := by
  refine ⟨rfl, rfl, rfl, rfl, rfl, rfl, rfl, by decide⟩

/-- C6 (amended): an entry whose `issues` is a bare string behaves exactly
like the same entry with the one-element list of that string, provided the
string is non-empty in the `annotations` variant (an empty bare string is
falsy there and falls through to the singular `issue` key, unlike `[""]`);
in the `app` variant the equivalence holds for every string. -/
theorem claim_C6_amended (load : String → Except String String)
    (measure : String → Int × Int) (renders references : List String)
    (k : Nat) (ri fi : Option Int) (iss : Option JVal)
    (bb : Option (Int × Int × Int × Int)) (sev : Option String) (s : String) :
    (s ≠ "" →
      Annotations.processEntry load measure renders references k
          ⟨ri, fi, some (JVal.str s), iss, bb, sev⟩ =
        Annotations.processEntry load measure renders references k
          ⟨ri, fi, some (JVal.list [s]), iss, bb, sev⟩) ∧
    (App.processEntry load measure renders references k
        ⟨ri, fi, some (JVal.str s), iss, bb, sev⟩ =
      App.processEntry load measure renders references k
        ⟨ri, fi, some (JVal.list [s]), iss, bb, sev⟩) := by
  constructor
  · intro hs
    have hne : (JVal.str s).truthy = true := by
      cases hE : s.isEmpty with
      | false => simp [JVal.truthy, hE]
      | true => exact absurd ((String.isEmpty_iff s).1 hE) hs
    have hne2 : (JVal.list [s]).truthy = true := by simp [JVal.truthy]
    simp [Annotations.processEntry, pyOrElse, hne, hne2, toIssueList, outOfRange]
  · simp [App.processEntry, toIssueList, outOfRange]

theorem claim_C6_witness :
    ("bad UV" : String) ≠ "" ∧
    Annotations.processEntry load0 measure0 renders0 references0 0
        ⟨some 0, some 0, some (JVal.str "bad UV"), none,
          some (10, 10, 50, 50), none⟩ =
      Annotations.processEntry load0 measure0 renders0 references0 0
        ⟨some 0, some 0, some (JVal.list ["bad UV"]), none,
          some (10, 10, 50, 50), none⟩ ∧
    App.processEntry load0 measure0 renders0 references0 0
        ⟨some 0, some 0, some (JVal.str "bad UV"), none,
          some (10, 10, 50, 50), none⟩ =
      App.processEntry load0 measure0 renders0 references0 0
        ⟨some 0, some 0, some (JVal.list ["bad UV"]), none,
          some (10, 10, 50, 50), none⟩ :=
  ⟨by decide,
    (claim_C6_amended load0 measure0 renders0 references0 0 (some 0) (some 0)
      none (some (10, 10, 50, 50)) none "bad UV").1 (by decide),
    (claim_C6_amended load0 measure0 renders0 references0 0 (some 0) (some 0)
      none (some (10, 10, 50, 50)) none "bad UV").2⟩

/-- C7: in the multi-label variant, the first drawn label is computed above
the top edge of the bounding box (its bottom sits at `y - PADDING`), each
successive label is computed strictly above the previous one (its bottom at
the previous label's top minus `PADDING`), and whenever the computed
position is off-canvas above (negative), the label is instead placed below
the box's bottom edge at `y + h + PADDING`; the single-label variant places
its label at `y - th - 8`, with the same below-the-box fallback. -/
theorem claim_C7 (measure : String → Int × Int) (x y h : Int)
    (issues : List String) (bbox : Int × Int × Int × Int) (severity : String) :
    (∀ lab ∈ (Annotations.drawLabels measure x y h (y - PADDING) issues).head?,
      ((y - PADDING) - (measure lab.text).2 < 0 ∧ lab.ty = y + h + PADDING) ∨
      (lab.ty = (y - PADDING) - (measure lab.text).2 ∧ 0 ≤ lab.ty)) ∧
    List.Chain' (fun a b =>
      (a.ty - PADDING - (measure b.text).2 < 0 ∧ b.ty = y + h + PADDING) ∨
      (b.ty = a.ty - PADDING - (measure b.text).2 ∧ 0 ≤ b.ty))
      (Annotations.drawLabels measure x y h (y - PADDING) issues) ∧
    (∀ lab ∈ App.drawLabel measure bbox severity issues,
      (bbox.2.1 - (measure lab.text).2 - 8 < 0 ∧
        lab.ty = bbox.2.1 + bbox.2.2.2 + 8) ∨
      (lab.ty = bbox.2.1 - (measure lab.text).2 - 8 ∧ 0 ≤ lab.ty)) :=
  ⟨(Annotations.drawLabels_spec measure x y h issues (y - PADDING)).1,
    (Annotations.drawLabels_spec measure x y h issues (y - PADDING)).2,
    App.drawLabel_ty measure bbox severity issues⟩

theorem claim_C7_witness :
    Annotations.drawLabels measure0 0 5 100 (5 - PADDING) ["aa", "bb", "cc"] =
      [⟨"aa", 0, 113, "black"⟩, ⟨"bb", 0, 85, "black"⟩,
        ⟨"cc", 0, 57, "black"⟩] ∧
    App.drawLabel measure0 (10, 10, 50, 50) "high" ["aa", "bb", "cc"] =
      [⟨"aa", 10, 68, "red"⟩] ∧
    ((∀ lab ∈ (Annotations.drawLabels measure0 0 5 100 (5 - PADDING)
        ["aa", "bb", "cc"]).head?,
      ((5 - PADDING) - (measure0 lab.text).2 < 0 ∧ lab.ty = 5 + 100 + PADDING) ∨
      (lab.ty = (5 - PADDING) - (measure0 lab.text).2 ∧ 0 ≤ lab.ty)) ∧
    List.Chain' (fun a b =>
      (a.ty - PADDING - (measure0 b.text).2 < 0 ∧ b.ty = 5 + 100 + PADDING) ∨
      (b.ty = a.ty - PADDING - (measure0 b.text).2 ∧ 0 ≤ b.ty))
      (Annotations.drawLabels measure0 0 5 100 (5 - PADDING)
        ["aa", "bb", "cc"]) ∧
    (∀ lab ∈ App.drawLabel measure0 (10, 10, 50, 50) "high" ["aa", "bb", "cc"],
      ((10 : Int) - (measure0 lab.text).2 - 8 < 0 ∧
        lab.ty = (10 : Int) + 50 + 8) ∨
      (lab.ty = (10 : Int) - (measure0 lab.text).2 - 8 ∧ 0 ≤ lab.ty))) :=
  ⟨by decide, by decide,
    claim_C7 measure0 0 5 100 ["aa", "bb", "cc"] (10, 10, 50, 50) "high"⟩

end Annot
